import Mathlib

/-!
Verification development for the vue-form-watchers watcher-orchestration
engine (source: src/index.js).  The reactive primitive (Vue's watch) is an
external collaborator: it is modelled as a synchronous change notification
"callback(newValue, oldValue) fires on mutation of the watched slot".
Machine state of the orchestrator (flag, watcher registry, debounce slot,
microtask queue, timers) is embedded explicitly as a record, and each
runtime operation of the source is a function on that record.
-/

/-- A JavaScript runtime value as seen by the watchers.  JS compares objects
by reference; tracked values may be nested objects, so a value is either a
primitive or an object carrying an allocation identity plus its structural
content.  Two distinct allocations can be structurally equal. -/
inductive Val where
  | prim (n : Int)
  | obj (ref : Nat) (fields : List (String × Int))
deriving DecidableEq

/-- JS strict equality (the === operator, used at line 68 of the source):
value equality on primitives, reference identity on objects. -/
def strictEq : Val → Val → Bool
  | Val.prim a, Val.prim b => a == b
  | Val.obj r _, Val.obj r2 _ => r == r2
  | _, _ => false

/-- Deep / structural equality on values (what the spec asks the change
detection to use): field-by-field comparison, ignoring object identity. -/
def structEq : Val → Val → Bool
  | Val.prim a, Val.prim b => a == b
  | Val.obj _ f, Val.obj _ f2 => f == f2
  | _, _ => false

/-- Origin of a change: the source strings are the literals
user and external at lines 71-75 of src/index.js. -/
inductive Source where
  | user
  | external
deriving DecidableEq

/-- Origin classification, lines 70-76 of src/index.js:
updateSource starts as user; the flag check comes first, the custom
isExternalUpdate function is consulted only when the flag is down. -/
def classifyOrigin (flag : Bool) (cls : Option (String → Val → Val → Bool))
    (k : String) (nv ov : Val) : Source :=
  if flag = true then Source.external
  else
    match cls with
    | some f => if f k nv ov = true then Source.external else Source.user
    | none => Source.user

/-- Diagnostic events, mirroring the logger methods of src/index.js
lines 17-42 (the debug option only gates console output, the events
themselves are what the code emits to the logger). -/
inductive LogEvent where
  | valueChange (key : String) (oldValue newValue : Val) (source : Source)
  | skippedUpdate (key : String)
  | debouncedUpdate (key : String) (value : Val) (source : Source)
  | newProperties (keys : List String)
deriving DecidableEq

/-- True unless the event is a valueChange classified as a user change;
used to state that everything observed inside a markUpdateAsExternal
callback was classified external. -/
def logExternalOnly : LogEvent → Bool
  | LogEvent.valueChange _ _ _ Source.user => false
  | _ => true

/-- Result of one run of the per-field watch callback: the diagnostics it
emitted and the debounced forwarding call it scheduled, if any. -/
structure FieldChangeResult where
  logs : List LogEvent
  scheduled : Option (String × Val × Source)
deriving DecidableEq

/-- The watch callback of createFieldWatcher, lines 67-85 of src/index.js.
The source computes updateSource once into a local; here the same value is
written out via classifyOrigin.  Early return when newValue === oldValue
(strict equality); then the valueChange diagnostic; then either the skip
of an external update or the debounced forwarding call. -/
def handleFieldChange (skip : Bool) (cls : Option (String → Val → Val → Bool))
    (flag : Bool) (k : String) (nv ov : Val) : FieldChangeResult :=
  if strictEq nv ov = true then ⟨[], none⟩
  else if skip = true ∧ classifyOrigin flag cls k nv ov = Source.external then
    ⟨[LogEvent.valueChange k ov nv (classifyOrigin flag cls k nv ov),
      LogEvent.skippedUpdate k], none⟩
  else
    ⟨[LogEvent.valueChange k ov nv (classifyOrigin flag cls k nv ov)],
      some (k, nv, classifyOrigin flag cls k nv ov)⟩

-- String constants used at concrete inputs (field names, error texts).
def kname : String := "name"

def kemail : String := "email"

def kextra : String := "extra"

def kfield : String := "a"

/-!
Input validation of createFormWatchers, lines 133-142 of src/index.js.
The checks are dynamic JavaScript checks (falsiness, typeof, Array.isArray),
so the argument values are embedded as a small JS dynamic-value type.
Array elements are drawn from a flat element type, which is all the
exclusion-list check can ever see.
-/
/-- An element of a JS array (flat: the exclusion-list validation never
looks below one level). -/
inductive JSElem where
  | enull
  | eundefined
  | ebool (b : Bool)
  | enum (n : Int)
  | estr (s : String)
  | eobj
  | efun
deriving DecidableEq

/-- The JS typeof operator on array elements. -/
def typeofElem : JSElem → String
  | JSElem.enull => "object"
  | JSElem.eundefined => "undefined"
  | JSElem.ebool _ => "boolean"
  | JSElem.enum _ => "number"
  | JSElem.estr _ => "string"
  | JSElem.eobj => "object"
  | JSElem.efun => "function"

/-- A JavaScript value as passed to createFormWatchers: null, undefined,
the primitive types, a plain object, an array (with its elements, needed
to talk about element types of the exclude option), or a function. -/
inductive JSVal where
  | vnull
  | vundefined
  | vbool (b : Bool)
  | vnum (n : Int)
  | vstr (s : String)
  | vobj
  | varr (elems : List JSElem)
  | vfun
deriving DecidableEq

/-- The JS typeof operator on these values (typeof null is the string
object; functions have their own typeof). -/
def typeofJs : JSVal → String
  | JSVal.vnull => "object"
  | JSVal.vundefined => "undefined"
  | JSVal.vbool _ => "boolean"
  | JSVal.vnum _ => "number"
  | JSVal.vstr _ => "string"
  | JSVal.vobj => "object"
  | JSVal.varr _ => "object"
  | JSVal.vfun => "function"

/-- JS truthiness, as tested by the guard at line 134 (!formObject). -/
def truthy : JSVal → Bool
  | JSVal.vnull => false
  | JSVal.vundefined => false
  | JSVal.vbool b => b
  | JSVal.vnum n => n != 0
  | JSVal.vstr s => s ≠ ""
  | JSVal.vobj => true
  | JSVal.varr _ => true
  | JSVal.vfun => true

/-- Array.isArray. -/
def isArrayJs : JSVal → Bool
  | JSVal.varr _ => true
  | _ => false

/-- A JS primitive value (null and undefined counted separately by the
claims; objects, arrays and functions are not primitives). -/
def isPrimitive : JSVal → Bool
  | JSVal.vbool _ => true
  | JSVal.vnum _ => true
  | JSVal.vstr _ => true
  | _ => false

def errFormObject : String := "formObject must be a reactive object"

def errUpdateFunction : String := "updateFunction must be a function"

def errExclude : String := "exclude option must be an array"

/-- The three validations at the top of createFormWatchers, lines 133-142
of src/index.js, in source order.  excludeOpt is the value of
options.exclude, with vundefined standing for an absent property. -/
def validateInputs (formObject updateFunction excludeOpt : JSVal) :
    Except String Unit :=
  if truthy formObject = false ∨ typeofJs formObject ≠ "object" then
    Except.error errFormObject
  else if typeofJs updateFunction ≠ "function" then
    Except.error errUpdateFunction
  else if excludeOpt ≠ JSVal.vundefined ∧ isArrayJs excludeOpt = false then
    Except.error errExclude
  else
    Except.ok ()

/-- Modelled from the spec: the condition the spec places on the exclusion
list (the code itself only checks Array.isArray): it must be absent or a
sequence of strings. -/
def specExcludeOk (excludeOpt : JSVal) : Bool :=
  match excludeOpt with
  | JSVal.vundefined => true
  | JSVal.varr es => es.all (fun e => typeofElem e == "string")
  | _ => false

/-!
The debouncer, lines 6-12 of src/index.js, wrapped around the forwarding
call at lines 160-166.  Each call clears the pending timeout and arms a new
one wait units later carrying the latest arguments.  A run is simulated
over a time-ordered list of schedule calls: the pending slot is an optional
pair of fire time and arguments; a schedule at time t first lets an
already-due timer fire, then replaces the slot (clearTimeout plus
setTimeout at t plus wait).
-/
/-- The argument tuple carried by the debounced forwarding call:
key, value, origin (line 161 of src/index.js). -/
def DebArgs : Type := String × Val × Source

/-- Simulate the timeout slot over schedule events given an initial pending
timer: returns the fired invocations (with their fire times) and the timer
still pending at the end. -/
def debProcessGo (wait : Nat) :
    List (Nat × DebArgs) → Option (Nat × DebArgs) →
      List (Nat × DebArgs) × Option (Nat × DebArgs)
  | [], pend => ([], pend)
  | (t, a) :: rest, pend =>
    match pend with
    | some (ft, pa) =>
      if ft ≤ t then
        let r := debProcessGo wait rest (some (t + wait, a))
        ((ft, pa) :: r.1, r.2)
      else
        debProcessGo wait rest (some (t + wait, a))
    | none => debProcessGo wait rest (some (t + wait, a))

/-- All invocations of the wrapped function when the schedule events fire
in time order and the clock then runs to tEnd. -/
def debRunTo (wait : Nat) (events : List (Nat × DebArgs)) (tEnd : Nat) :
    List (Nat × DebArgs) :=
  match debProcessGo wait events none with
  | (fired, some (ft, pa)) => if ft ≤ tEnd then fired ++ [(ft, pa)] else fired
  | (fired, none) => fired

/-!
Whole-system model of createFormWatchers, lines 132-221 of src/index.js.
A Sys record holds the watched container, the external-update flag, the
live Vue watchers, the private Map of createObjectWatcher (line 98), the
orchestrator's watcher Set (line 180), the single debounce slot, the
count of queued flag-reset microtasks, the clock, and the observable
outputs (consumer calls and diagnostics).  The custom isExternalUpdate
classifier is passed to the step functions as a parameter so the state
stays first-order.  The immediate option is left at its default false.
Vue's watch is the external reactive collaborator; it is modelled as a
synchronous notification: each write to a watched key runs every live
field watcher for that key, and a write creating a key runs the key-set
watcher.
-/
/-- One live field watcher: its handle identity and the key it observes. -/
structure FieldW where
  id : Nat
  key : String
deriving DecidableEq

/-- The full orchestrator state. -/
structure Sys where
  exclude : List String
  skipExternalUpdates : Bool
  debounceTime : Nat
  container : List (String × Val)
  flagVal : Bool
  nextId : Nat
  activeField : List FieldW
  objActive : Bool
  objId : Nat
  objMap : List String
  tracked : List Nat
  pending : Option (Nat × String × Val × Source)
  microResets : Nat
  now : Nat
  calls : List (String × Val × Source)
  logs : List LogEvent
deriving DecidableEq

/-- createAndTrackFieldWatcher, lines 183-187: createFieldWatcher returns
nothing for an excluded key (lines 60-63, with a skipped diagnostic);
otherwise the new handle is added to the orchestrator's watchers Set. -/
def attachTracked (s : Sys) (k : String) : Sys :=
  if k ∈ s.exclude then
    { s with logs := s.logs ++ [LogEvent.skippedUpdate k] }
  else
    { s with activeField := s.activeField ++ [FieldW.mk s.nextId k],
             tracked := s.tracked ++ [s.nextId],
             nextId := s.nextId + 1 }

/-- updateWatchers inside createObjectWatcher, lines 100-107: skips keys
already in the private Map, then calls the module-level createFieldWatcher
directly (NOT the tracking wrapper passed in the config), so the handle is
stored only in the private Map and never reaches the orchestrator Set. -/
def attachUntracked (s : Sys) (k : String) : Sys :=
  if k ∈ s.objMap then s
  else if k ∈ s.exclude then
    { s with logs := s.logs ++ [LogEvent.skippedUpdate k] }
  else
    { s with activeField := s.activeField ++ [FieldW.mk s.nextId k],
             objMap := s.objMap ++ [k],
             nextId := s.nextId + 1 }

/-- createFormWatchers construction, lines 144-198 (after validation):
build the config, create tracked watchers for the existing keys (line 190),
then createObjectWatcher: its own updateWatchers pass over the existing
keys (line 109, creating the untracked duplicates), then the key-set watch
with immediate: true, whose immediate firing sees oldKeys undefined
(defaulted to []) so every current key counts as added (lines 115-124);
finally the key-set handle is added to the Set (line 198). -/
def constructInit (c0 : List (String × Val)) (ex : List String)
    (skip : Bool) (dt : Nat) : Sys :=
  { exclude := ex, skipExternalUpdates := skip, debounceTime := dt,
    container := c0, flagVal := false, nextId := 0, activeField := [],
    objActive := false, objId := 0, objMap := [], tracked := [],
    pending := none, microResets := 0, now := 0, calls := [], logs := [] }

/-- Line 190: Object.keys(formObject).forEach(createAndTrackFieldWatcher). -/
def attachTrackedAll (c0 : List (String × Val)) (s : Sys) : Sys :=
  c0.foldl (fun s2 kv => attachTracked s2 kv.1) s

/-- createObjectWatcher's own pass over the existing keys: line 109, then
the immediate firing of the key-set watch (lines 115-124) in which every
current key counts as added because oldKeys defaults to []. -/
def objWatcherInit (c0 : List (String × Val)) (s : Sys) : Sys :=
  if c0.map Prod.fst ≠ [] then
    (c0.map Prod.fst).foldl attachUntracked
      { (c0.foldl (fun st kv => attachUntracked st kv.1) s) with
          logs := (c0.foldl (fun st kv => attachUntracked st kv.1) s).logs ++
            [LogEvent.newProperties (c0.map Prod.fst)] }
  else c0.foldl (fun st kv => attachUntracked st kv.1) s

/-- Line 198: the key-set watcher handle is added to the Set. -/
def registerObjWatcher (s : Sys) : Sys :=
  { s with objActive := true, objId := s.nextId,
           tracked := s.tracked ++ [s.nextId],
           nextId := s.nextId + 1 }

def construct (c0 : List (String × Val)) (ex : List String)
    (skip : Bool) (dt : Nat) : Sys :=
  registerObjWatcher
    (objWatcherInit c0 (attachTrackedAll c0 (constructInit c0 ex skip dt)))

/-- Current value of a key in the container. -/
def lookupKey : List (String × Val) → String → Option Val
  | [], _ => none
  | (k2, v) :: rest, k => if k2 = k then some v else lookupKey rest k

/-- Assignment to an existing key. -/
def setKey : List (String × Val) → String → Val → List (String × Val)
  | [], _, _ => []
  | (k2, v2) :: rest, k, v =>
    if k2 = k then (k2, v) :: setKey rest k v else (k2, v2) :: setKey rest k v

/-- Deliver one change notification to one live watcher: if it watches the
written key, run the watch callback of lines 67-85; a scheduled forwarding
call replaces the single debounce slot (clearTimeout plus setTimeout,
lines 8-11), due debounceTime units from now. -/
def fireOne (cls : Option (String → Val → Val → Bool)) (k : String)
    (v ov : Val) (s : Sys) (w : FieldW) : Sys :=
  if w.key = k then
    match handleFieldChange s.skipExternalUpdates cls s.flagVal k v ov with
    | FieldChangeResult.mk lgs (some a) =>
      { s with logs := s.logs ++ lgs,
               pending := some (s.now + s.debounceTime, a.1, a.2.1, a.2.2) }
    | FieldChangeResult.mk lgs none =>
      { s with logs := s.logs ++ lgs }
  else s

/-- A write to the container.  For an existing key, every live field
watcher on that key is notified (newValue, oldValue).  For a new key, the
key-set watcher (lines 115-124) reports it as added: the newProperties
diagnostic fires and updateWatchers creates an untracked field watcher for
it.  There is no field watcher yet for a new key, so no value callback
runs for the creating write. -/
def doWrite (cls : Option (String → Val → Val → Bool)) (s : Sys)
    (k : String) (v : Val) : Sys :=
  match lookupKey s.container k with
  | some ov =>
    ({ s with container := setKey s.container k v } : Sys).activeField.foldl
      (fireOne cls k v ov) { s with container := setKey s.container k v }
  | none =>
    if s.objActive = true then
      attachUntracked
        { s with container := s.container ++ [(k, v)],
                 logs := s.logs ++ [LogEvent.newProperties [k]] } k
    else { s with container := s.container ++ [(k, v)] }

/-- destroy, lines 214-218: call the unwatch handle of every watcher in
the orchestrator Set and clear the Set.  Field watchers whose handles were
never added to the Set stay live, and the pending debounce slot is not
touched (createDebouncer exposes no cancel). -/
def doDestroy (s : Sys) : Sys :=
  { s with
      activeField := s.activeField.filter (fun w => w.id ∉ s.tracked),
      objActive := if s.objId ∈ s.tracked then false else s.objActive,
      tracked := [] }

/-- Let the clock advance; a due timeout fires the wrapped function of
lines 161-164: the debouncedUpdate diagnostic, then the consumer call. -/
def doAdvance (s : Sys) (dt : Nat) : Sys :=
  match s.pending with
  | some (ft, k, v, src) =>
    if ft ≤ s.now + dt then
      { s with now := s.now + dt, pending := none,
               logs := s.logs ++ [LogEvent.debouncedUpdate k v src],
               calls := s.calls ++ [(k, v, src)] }
    else { s with now := s.now + dt }
  | none => { s with now := s.now + dt }

/-- markUpdateAsExternal, lines 202-213.  The flag is raised, the caller
callback runs (modelled as the writes it performs, followed by an optional
raised error).  On normal return a reset of the flag is queued as a
microtask (Promise.resolve().then, line 206).  If the callback raised, the
flag is lowered immediately in the catch and the error is re-raised to the
caller (returned in the second component). -/
def markUpdateAsExternalModel (cls : Option (String → Val → Val → Bool))
    (s : Sys) (ws : List (String × Val)) (err : Option String) :
    Sys × Option String :=
  let s1 : Sys := { s with flagVal := true }
  let s2 := ws.foldl (fun st kv => doWrite cls st kv.1 kv.2) s1
  match err with
  | none => ({ s2 with microResets := s2.microResets + 1 }, none)
  | some e => ({ s2 with flagVal := false }, some e)

/-- Drain the microtask queue: every queued reset lowers the flag. -/
def doDrainMicro (s : Sys) : Sys :=
  if s.microResets > 0 then { s with flagVal := false, microResets := 0 }
  else s

/-- End of a synchronous turn of the host event loop: the microtask queue
drains completely before any timer task runs (microtask priority), then
the clock advances and due timers fire. -/
def endOfTurn (s : Sys) (dt : Nat) : Sys :=
  doAdvance (doDrainMicro s) dt

/-- External events driving one orchestrator instance. -/
inductive Ev where
  | write (k : String) (v : Val)
  | destroy
  | advance (dt : Nat)
  | markExternal (ws : List (String × Val)) (err : Option String)
  | drainMicro

/-- One step of the system. -/
def stepEv (cls : Option (String → Val → Val → Bool)) (s : Sys) : Ev → Sys
  | Ev.write k v => doWrite cls s k v
  | Ev.destroy => doDestroy s
  | Ev.advance dt => doAdvance s dt
  | Ev.markExternal ws err => (markUpdateAsExternalModel cls s ws err).1
  | Ev.drainMicro => doDrainMicro s

/-- A whole run: construct, then process the events in order. -/
def runEvents (cls : Option (String → Val → Val → Bool))
    (c0 : List (String × Val)) (ex : List String) (skip : Bool) (dt : Nat)
    (evs : List Ev) : Sys :=
  evs.foldl (stepEv cls) (construct c0 ex skip dt)

def errBoom : String := "boom"

/-!
The exclusion invariant: for an excluded key there is never a live field
watcher on it, the debounce slot never carries it, and no consumer call
ever carried it.
-/
/-- The invariant tying an excluded key k0 to the parts of the state that
could ever bring it to the consumer. -/
def NeverKey (k0 : String) (s : Sys) : Prop :=
  (∀ w ∈ s.activeField, w.key ≠ k0) ∧
  (∀ ft k2 v src, s.pending = some (ft, k2, v, src) → k2 ≠ k0) ∧
  (∀ c ∈ s.calls, c.1 ≠ k0) ∧
  k0 ∈ s.exclude

/-- createFormWatchers as a whole: the three validations run first and a
raised validation error prevents any construction (no watcher is ever
installed); only on success is the orchestrator state built. -/
def createFormWatchersModel (fo uf ex : JSVal) (c0 : List (String × Val))
    (exl : List String) (skip : Bool) (dt : Nat) : Except String Sys :=
  match validateInputs fo uf ex with
  | Except.error e => Except.error e
  | Except.ok _ => Except.ok (construct c0 exl skip dt)

/-- Claim C4: origin classification follows the exact priority order: a set
ExternalUpdateFlag yields external unconditionally, without consulting the
custom classifier; otherwise a configured classifier's boolean result
decides external versus user; otherwise the result is user. -/
theorem classify_priority_exact (cls : Option (String → Val → Val → Bool))
    (f : String → Val → Val → Bool) (k : String) (nv ov : Val) :
    classifyOrigin true cls k nv ov = Source.external ∧
    classifyOrigin false (some f) k nv ov =
      (if f k nv ov = true then Source.external else Source.user) ∧
    classifyOrigin false none k nv ov = Source.user := by
  refine ⟨?_, ?_, ?_⟩ <;> simp [classifyOrigin]

/-- Claim C3 counterexample: a write of an object structurally equal to the
held value but with a different identity does trigger classification,
diagnostics and forwarding, because line 68 compares with === instead of a
deep comparison. -/
theorem identity_not_structural_eq :
    structEq (Val.obj 1 [(kfield, 1)]) (Val.obj 0 [(kfield, 1)]) = true ∧
    handleFieldChange true none false kname
        (Val.obj 1 [(kfield, 1)]) (Val.obj 0 [(kfield, 1)]) ≠
      FieldChangeResult.mk [] none := by
  exact ⟨rfl, by decide⟩

/-- Claim C3 amended: change detection uses strict (===) identity equality,
not structural equality: a write that is strictly equal to the held value
triggers nothing, and every write that is not strictly equal (even if it is
structurally equal) triggers classification and diagnostics. -/
theorem change_detection_strict (skip : Bool)
    (cls : Option (String → Val → Val → Bool)) (flag : Bool)
    (k : String) (nv ov : Val) :
    (strictEq nv ov = true →
        handleFieldChange skip cls flag k nv ov = FieldChangeResult.mk [] none) ∧
    (strictEq nv ov = false →
        (handleFieldChange skip cls flag k nv ov).logs ≠ []) := by
  constructor
  · intro h
    simp [handleFieldChange, h]
  · intro h
    simp only [handleFieldChange, h]
    rw [if_neg (by simp)]
    split <;> simp

/-- Witness for change_detection_strict at a concrete input. -/
theorem change_detection_strict_witness :
    strictEq (Val.prim 3) (Val.prim 3) = true ∧
    handleFieldChange true none false kname (Val.prim 3) (Val.prim 3) =
      FieldChangeResult.mk [] none :=
  ⟨by decide, (change_detection_strict true none false kname
      (Val.prim 3) (Val.prim 3)).1 (by decide)⟩

/-- Claim C7 counterexample: an exclusion list that is present and is not a
sequence of strings (an array holding a number) passes validation, so no
input-validation error is raised where the claim requires one. -/
theorem exclude_elements_unchecked :
    specExcludeOk (JSVal.varr [JSElem.enum 1]) = false ∧
    validateInputs JSVal.vobj JSVal.vfun (JSVal.varr [JSElem.enum 1]) =
      Except.ok () := by
  exact ⟨rfl, rfl⟩

/-- Claim C10 counterexample: a function passed as the container is a
non-null value that is neither null, undefined, nor a non-object primitive,
yet createFormWatchers raises the input-validation error for it, because
the typeof guard rejects everything whose typeof is not the string object. -/
theorem function_container_rejected :
    isPrimitive JSVal.vfun = false ∧
    JSVal.vfun ≠ JSVal.vnull ∧
    JSVal.vfun ≠ JSVal.vundefined ∧
    validateInputs JSVal.vfun JSVal.vfun JSVal.vundefined =
      Except.error errFormObject := by
  refine ⟨rfl, by decide, by decide, rfl⟩

/-- Claim C10 amended: with a callable forwarding callback and a valid
exclusion option, validation accepts the container exactly when it is
non-null and of typeof object (arrays and other non-plain objects
included); null, undefined, non-object primitives, and also functions
(typeof function) are rejected. -/
theorem container_validation_exact (fo uf ex : JSVal)
    (huf : typeofJs uf = "function")
    (hex : ex = JSVal.vundefined ∨ isArrayJs ex = true) :
    validateInputs fo uf ex = Except.ok () ↔
      (fo ≠ JSVal.vnull ∧ typeofJs fo = "object") := by
  constructor
  · intro h
    cases fo <;> simp_all [validateInputs, truthy, typeofJs]
  · intro h
    obtain ⟨h1, h2⟩ := h
    have htruthy : truthy fo = true := by
      cases fo <;> simp_all [typeofJs, truthy]
    unfold validateInputs
    rw [if_neg (by simp [htruthy, h2]), if_neg (by simp [huf])]
    rcases hex with hex | hex
    · rw [if_neg (by simp [hex])]
    · rw [if_neg (by simp [hex])]

/-- Witness for container_validation_exact at a concrete input: an array
container is accepted. -/
theorem container_validation_exact_witness :
    typeofJs JSVal.vfun = "function" ∧
    (validateInputs (JSVal.varr []) JSVal.vfun JSVal.vundefined =
        Except.ok () ↔
      (JSVal.varr [] ≠ JSVal.vnull ∧ typeofJs (JSVal.varr []) = "object")) :=
  ⟨by decide, container_validation_exact (JSVal.varr []) JSVal.vfun
      JSVal.vundefined (by decide) (Or.inl rfl)⟩

/-- While every next schedule lands strictly inside the window opened by
the previous one, the pending timer never fires: the run ends with no
invocation yet and the last arguments armed. -/
lemma debProcessGo_chain (wait : Nat) :
    ∀ (l : List (Nat × DebArgs)) (pt : Nat) (pa : DebArgs),
      List.Chain (fun e e2 => e.1 ≤ e2.1 ∧ e2.1 < e.1 + wait) (pt, pa) l →
      debProcessGo wait l (some (pt + wait, pa)) =
        ([], some ((l.getLastD (pt, pa)).1 + wait, (l.getLastD (pt, pa)).2)) := by
  intro l
  induction l with
  | nil =>
    intro pt pa _
    rfl
  | cons e2 l2 ih =>
    intro pt pa hch
    obtain ⟨t2, a2⟩ := e2
    rw [List.chain_cons] at hch
    obtain ⟨⟨_, hlt⟩, hch2⟩ := hch
    have hnotle : ¬ pt + wait ≤ t2 := by omega
    show (if pt + wait ≤ t2 then _ else debProcessGo wait l2 (some (t2 + wait, a2))) = _
    rw [if_neg hnotle, ih t2 a2 hch2, List.getLastD_cons]

/-- Claim C6: for every sequence of schedule calls within one debounce
window (each call strictly before the previous window closes), the wrapped
forwarding function is invoked at most once, and any invocation carries
exactly the key, value and origin of the last schedule call, firing wait
units after it. -/
theorem debounce_trailing_last (wait : Nat) (e0 : Nat × DebArgs)
    (rest : List (Nat × DebArgs))
    (hchain : List.Chain (fun e e2 => e.1 ≤ e2.1 ∧ e2.1 < e.1 + wait) e0 rest)
    (tEnd : Nat) :
    (debRunTo wait (e0 :: rest) tEnd).length ≤ 1 ∧
    ∀ c ∈ debRunTo wait (e0 :: rest) tEnd,
      c = ((rest.getLastD e0).1 + wait, (rest.getLastD e0).2) := by
  obtain ⟨t0, a0⟩ := e0
  have hgo : debProcessGo wait ((t0, a0) :: rest) none =
      ([], some ((rest.getLastD (t0, a0)).1 + wait, (rest.getLastD (t0, a0)).2)) := by
    show debProcessGo wait rest (some (t0 + wait, a0)) = _
    exact debProcessGo_chain wait rest t0 a0 hchain
  by_cases hfi : (rest.getLastD (t0, a0)).1 + wait ≤ tEnd
  · have hrun : debRunTo wait ((t0, a0) :: rest) tEnd =
        [((rest.getLastD (t0, a0)).1 + wait, (rest.getLastD (t0, a0)).2)] := by
      unfold debRunTo
      rw [hgo]
      show (if (rest.getLastD (t0, a0)).1 + wait ≤ tEnd
          then [] ++ [((rest.getLastD (t0, a0)).1 + wait, (rest.getLastD (t0, a0)).2)]
          else []) = _
      rw [if_pos hfi]
      rfl
    rw [hrun]
    constructor
    · simp
    · intro c hc
      simp only [List.mem_singleton] at hc
      exact hc
  · have hrun : debRunTo wait ((t0, a0) :: rest) tEnd = [] := by
      unfold debRunTo
      rw [hgo]
      show (if (rest.getLastD (t0, a0)).1 + wait ≤ tEnd
          then [] ++ [((rest.getLastD (t0, a0)).1 + wait, (rest.getLastD (t0, a0)).2)]
          else []) = _
      rw [if_neg hfi]
    rw [hrun]
    exact ⟨by simp, by simp⟩

/-- Witness for debounce_trailing_last: the spec scenario of three writes
to name at times 0, 50, 100 with a 100-unit window, run to time 200. -/
theorem debounce_trailing_last_witness :
    (debRunTo 100 [(0, (kname, Val.prim 1, Source.user)),
        (50, (kname, Val.prim 2, Source.user)),
        (100, (kname, Val.prim 3, Source.user))] 200).length ≤ 1 ∧
    ∀ c ∈ debRunTo 100 [(0, (kname, Val.prim 1, Source.user)),
        (50, (kname, Val.prim 2, Source.user)),
        (100, (kname, Val.prim 3, Source.user))] 200,
      c = (([((50 : Nat), ((kname, Val.prim 2, Source.user) : DebArgs)),
            (100, (kname, Val.prim 3, Source.user))].getLastD
              (0, (kname, Val.prim 1, Source.user))).1 + 100,
           ([((50 : Nat), ((kname, Val.prim 2, Source.user) : DebArgs)),
            (100, (kname, Val.prim 3, Source.user))].getLastD
              (0, (kname, Val.prim 1, Source.user))).2) :=
  debounce_trailing_last 100 (0, (kname, Val.prim 1, Source.user))
    [(50, (kname, Val.prim 2, Source.user)),
     (100, (kname, Val.prim 3, Source.user))]
    (List.Chain.cons (by constructor <;> norm_num)
      (List.Chain.cons (by constructor <;> norm_num) List.Chain.nil))
    200

/-- Claim C1 is violated by the code (code bug): with container
(name, 0), debounce 100, a consumer call still happens after destroy in
both offending ways.  First, a write made before destroy leaves a pending
debounced call that destroy does not cancel (createDebouncer exposes no
cancel and destroy never clears the timeout), so it fires after destroy.
Second, a write made after destroy is still forwarded, because the
duplicate field watcher created inside createObjectWatcher (line 103 calls
the untracked createFieldWatcher instead of config.createFieldWatcher) was
never added to the watchers Set, so destroy does not stop it.  The repo's
own cleanup test (no updates after destroy) contradicts this behaviour. -/
theorem destroy_leaks_consumer_calls :
    (doAdvance (doDestroy
        (doWrite none (construct [(kname, Val.prim 0)] [] true 100)
          kname (Val.prim 1))) 100).calls
      = [(kname, Val.prim 1, Source.user)] ∧
    (doAdvance (doWrite none (doDestroy
        (construct [(kname, Val.prim 0)] [] true 100))
          kname (Val.prim 2)) 100).calls
      = [(kname, Val.prim 2, Source.user)] := by
  exact ⟨rfl, rfl⟩

/-- Claim C2 is violated by the code (code bug): after construction with
container (name, 0) there are two live field watchers for the single
non-excluded key name (ids 0 and 1), and the orchestrator Set holds only
id 0 plus the key-set handle id 2 — so the registry does not contain every
handle returned by watcher creation, and the key does not have exactly one
FieldWatcher.  A key added later (extra) gets a field watcher (id 3) that
is never registered at all, permanently, not just during the discovery
window. -/
theorem registry_misses_watchers :
    ((construct [(kname, Val.prim 0)] [] true 100).activeField
        = [FieldW.mk 0 kname, FieldW.mk 1 kname] ∧
      (construct [(kname, Val.prim 0)] [] true 100).tracked = [0, 2]) ∧
    ((doWrite none (construct [(kname, Val.prim 0)] [] true 100)
          kextra (Val.prim 5)).activeField
        = [FieldW.mk 0 kname, FieldW.mk 1 kname, FieldW.mk 3 kextra] ∧
      (doWrite none (construct [(kname, Val.prim 0)] [] true 100)
          kextra (Val.prim 5)).tracked = [0, 2]) := by
  exact ⟨⟨rfl, rfl⟩, ⟨rfl, rfl⟩⟩

/-!
Step lemmas: normal forms for one delivery, a delivery sweep, and a write,
used for the external-flag claims and the exclusion claim.
-/
/-- The watch callback schedules either nothing or exactly the written key
and value with the computed origin. -/
lemma handleFieldChange_scheduled (skip : Bool)
    (cls : Option (String → Val → Val → Bool)) (flag : Bool)
    (k : String) (nv ov : Val) :
    (handleFieldChange skip cls flag k nv ov).scheduled = none ∨
    (handleFieldChange skip cls flag k nv ov).scheduled =
      some (k, nv, classifyOrigin flag cls k nv ov) := by
  unfold handleFieldChange
  split
  · exact Or.inl rfl
  · split
    · exact Or.inl rfl
    · exact Or.inr rfl

/-- With the flag up, every diagnostic the watch callback emits carries the
external origin. -/
lemma handleFieldChange_logs_flag (skip : Bool)
    (cls : Option (String → Val → Val → Bool)) (k : String) (nv ov : Val) :
    (handleFieldChange skip cls true k nv ov).logs.all logExternalOnly = true := by
  have h : classifyOrigin true cls k nv ov = Source.external := rfl
  unfold handleFieldChange
  split
  · rfl
  · split
    · simp [h, logExternalOnly]
    · simp [h, logExternalOnly]

/-- Normal form of one delivery: only the diagnostics and the debounce
slot change; the slot is either untouched or rearmed with the written key
and value; with the flag up all new diagnostics are external. -/
lemma fireOne_spec (cls : Option (String → Val → Val → Bool)) (k : String)
    (v ov : Val) (s : Sys) (w : FieldW) :
    ∃ new p,
      fireOne cls k v ov s w = { s with logs := s.logs ++ new, pending := p } ∧
      (p = s.pending ∨ (w.key = k ∧ ∃ ft src, p = some (ft, k, v, src))) ∧
      (s.flagVal = true → new.all logExternalOnly = true) := by
  unfold fireOne
  by_cases hw : w.key = k
  · rw [if_pos hw]
    rcases hsch : handleFieldChange s.skipExternalUpdates cls s.flagVal k v ov
      with ⟨lgs, sch⟩
    have hlogs : s.flagVal = true → lgs.all logExternalOnly = true := by
      intro hf
      have h2 : (handleFieldChange s.skipExternalUpdates cls s.flagVal k v ov).logs.all
          logExternalOnly = true := by
        rw [hf]
        exact handleFieldChange_logs_flag s.skipExternalUpdates cls k v ov
      rw [hsch] at h2
      exact h2
    cases sch with
    | none =>
      refine ⟨lgs, s.pending, ?_, Or.inl rfl, hlogs⟩
      rfl
    | some a =>
      have ha : a = (k, v, classifyOrigin s.flagVal cls k v ov) := by
        rcases handleFieldChange_scheduled s.skipExternalUpdates cls s.flagVal k v ov
          with h2 | h2 <;> rw [hsch] at h2 <;> simp at h2
        exact h2
      refine ⟨lgs, some (s.now + s.debounceTime, a.1, a.2.1, a.2.2), ?_, ?_, hlogs⟩
      · rfl
      · right
        refine ⟨hw, s.now + s.debounceTime, a.2.2, ?_⟩
        rw [ha]
  · rw [if_neg hw]
    exact ⟨[], s.pending, by simp, Or.inl rfl, fun _ => rfl⟩

/-- Normal form of a delivery sweep over a list of watchers. -/
lemma foldl_fireOne_spec (cls : Option (String → Val → Val → Bool))
    (k : String) (v ov : Val) :
    ∀ (l : List FieldW) (s : Sys),
      ∃ new p,
        l.foldl (fireOne cls k v ov) s =
          { s with logs := s.logs ++ new, pending := p } ∧
        (p = s.pending ∨ ((∃ w ∈ l, w.key = k) ∧ ∃ ft src, p = some (ft, k, v, src))) ∧
        (s.flagVal = true → new.all logExternalOnly = true) := by
  intro l
  induction l with
  | nil =>
    intro s
    exact ⟨[], s.pending, by simp, Or.inl rfl, fun _ => rfl⟩
  | cons w l2 ih =>
    intro s
    obtain ⟨n1, p1, he1, hp1, hl1⟩ := fireOne_spec cls k v ov s w
    obtain ⟨n2, p2, he2, hp2, hl2⟩ := ih (fireOne cls k v ov s w)
    refine ⟨n1 ++ n2, p2, ?_, ?_, ?_⟩
    · rw [List.foldl_cons, he2, he1]
      simp
    · rcases hp2 with hp2 | ⟨⟨w2, hw2, hk2⟩, hex⟩
      · rw [he1] at hp2
        simp only at hp2
        rcases hp1 with hp1 | ⟨hwk, hex1⟩
        · exact Or.inl (hp2.trans hp1)
        · exact Or.inr ⟨⟨w, List.mem_cons_self w l2, hwk⟩, hp2 ▸ hex1⟩
      · exact Or.inr ⟨⟨w2, List.mem_cons_of_mem w hw2, hk2⟩, hex⟩
    · intro hf
      have hf1 : (fireOne cls k v ov s w).flagVal = true := by
        rw [he1]; exact hf
      rw [he1] at hl2
      simp only at hl2
      rw [List.all_append]
      simp [hl1 hf, hl2 hf]

/-- attachUntracked changes only the live-watcher list, the private Map,
the id counter and the diagnostics; new diagnostics are never user-origin
value changes. -/
lemma attachUntracked_proj (s : Sys) (k : String) :
    (attachUntracked s k).flagVal = s.flagVal ∧
    (attachUntracked s k).microResets = s.microResets ∧
    (attachUntracked s k).calls = s.calls ∧
    (attachUntracked s k).skipExternalUpdates = s.skipExternalUpdates ∧
    (attachUntracked s k).exclude = s.exclude ∧
    (attachUntracked s k).pending = s.pending ∧
    ∃ new, (attachUntracked s k).logs = s.logs ++ new ∧
      new.all logExternalOnly = true := by
  unfold attachUntracked
  split
  · exact ⟨rfl, rfl, rfl, rfl, rfl, rfl, [], by simp, rfl⟩
  · split
    · exact ⟨rfl, rfl, rfl, rfl, rfl, rfl, [LogEvent.skippedUpdate k], rfl, rfl⟩
    · exact ⟨rfl, rfl, rfl, rfl, rfl, rfl, [], by simp, rfl⟩

/-- A write leaves the flag, the microtask count, the consumer calls and
the configuration untouched, and only appends diagnostics; with the flag
up all appended diagnostics are external. -/
lemma doWrite_proj (cls : Option (String → Val → Val → Bool)) (s : Sys)
    (k : String) (v : Val) :
    (doWrite cls s k v).flagVal = s.flagVal ∧
    (doWrite cls s k v).microResets = s.microResets ∧
    (doWrite cls s k v).calls = s.calls ∧
    (doWrite cls s k v).skipExternalUpdates = s.skipExternalUpdates ∧
    (doWrite cls s k v).exclude = s.exclude ∧
    ∃ new, (doWrite cls s k v).logs = s.logs ++ new ∧
      (s.flagVal = true → new.all logExternalOnly = true) := by
  unfold doWrite
  rcases hl : lookupKey s.container k with _ | ov
  · simp only
    by_cases hobj : s.objActive = true
    · rw [if_pos hobj]
      obtain ⟨h1, h2, h3, h4, h5, _, new2, hlg, hall⟩ := attachUntracked_proj
        { s with container := s.container ++ [(k, v)],
                 logs := s.logs ++ [LogEvent.newProperties [k]] } k
      rw [h1, h2, h3, h4, h5]
      refine ⟨rfl, rfl, rfl, rfl, rfl, [LogEvent.newProperties [k]] ++ new2, ?_, ?_⟩
      · rw [hlg]
        simp
      · intro _
        rw [List.all_append]
        simp [hall, logExternalOnly]
    · rw [if_neg hobj]
      exact ⟨rfl, rfl, rfl, rfl, rfl, [], by simp, fun _ => rfl⟩
  · simp only
    obtain ⟨new, p, heq, _, hall⟩ := foldl_fireOne_spec cls k v ov
      ({ s with container := setKey s.container k v } : Sys).activeField
      { s with container := setKey s.container k v }
    rw [heq]
    exact ⟨rfl, rfl, rfl, rfl, rfl, new, by simp, hall⟩

/-- The write sweep of a markUpdateAsExternal callback, as a fold. -/
lemma foldl_doWrite_proj (cls : Option (String → Val → Val → Bool))
    (ws : List (String × Val)) :
    ∀ (s : Sys),
      ((ws.foldl (fun st kv => doWrite cls st kv.1 kv.2) s).flagVal = s.flagVal) ∧
      ((ws.foldl (fun st kv => doWrite cls st kv.1 kv.2) s).microResets = s.microResets) ∧
      ((ws.foldl (fun st kv => doWrite cls st kv.1 kv.2) s).calls = s.calls) ∧
      ((ws.foldl (fun st kv => doWrite cls st kv.1 kv.2) s).skipExternalUpdates
        = s.skipExternalUpdates) ∧
      ((ws.foldl (fun st kv => doWrite cls st kv.1 kv.2) s).exclude = s.exclude) ∧
      ∃ new, (ws.foldl (fun st kv => doWrite cls st kv.1 kv.2) s).logs = s.logs ++ new ∧
        (s.flagVal = true → new.all logExternalOnly = true) := by
  induction ws with
  | nil =>
    intro s
    exact ⟨rfl, rfl, rfl, rfl, rfl, [], by simp, fun _ => rfl⟩
  | cons kv ws2 ih =>
    intro s
    obtain ⟨h1, h2, h3, h4, h5, n1, hlg1, hall1⟩ := doWrite_proj cls s kv.1 kv.2
    obtain ⟨g1, g2, g3, g4, g5, n2, hlg2, hall2⟩ := ih (doWrite cls s kv.1 kv.2)
    rw [List.foldl_cons]
    refine ⟨g1.trans h1, g2.trans h2, g3.trans h3, g4.trans h4, g5.trans h5,
      n1 ++ n2, ?_, ?_⟩
    · rw [hlg2, hlg1]
      simp
    · intro hf
      rw [List.all_append]
      have hf2 : (doWrite cls s kv.1 kv.2).flagVal = true := h1.trans hf
      simp [hall1 hf, hall2 hf2]

/-- Advancing the clock never changes the flag. -/
lemma doAdvance_flag (s : Sys) (dt : Nat) : (doAdvance s dt).flagVal = s.flagVal := by
  unfold doAdvance
  rcases s.pending with _ | ⟨ft, k, v, src⟩
  · rfl
  · simp only
    split <;> rfl

/-- Claim C9: on successful return of the markUpdateAsExternal callback,
the flag is still true at the end of the synchronous turn (the reset is
deferred, queued as one microtask), every change watcher that ran
synchronously inside the callback observed the flag as true (all
diagnostics emitted during the call are external-origin), and the reset
runs when the microtask queue drains — which the event loop does before
any timer-scheduled task, so by the time any timer task runs the flag is
already false. -/
theorem markExternal_defers_reset (cls : Option (String → Val → Val → Bool))
    (s : Sys) (ws : List (String × Val)) :
    ((markUpdateAsExternalModel cls s ws none).1.flagVal = true) ∧
    ((markUpdateAsExternalModel cls s ws none).1.microResets = s.microResets + 1) ∧
    (∃ new, (markUpdateAsExternalModel cls s ws none).1.logs = s.logs ++ new ∧
        new.all logExternalOnly = true) ∧
    ((doDrainMicro (markUpdateAsExternalModel cls s ws none).1).flagVal = false) ∧
    (∀ dt, (endOfTurn (markUpdateAsExternalModel cls s ws none).1 dt).flagVal = false) := by
  obtain ⟨h1, h2, _, _, _, new, hlg, hall⟩ :=
    foldl_doWrite_proj cls ws { s with flagVal := true }
  have hflag : (markUpdateAsExternalModel cls s ws none).1.flagVal = true := by
    show (ws.foldl (fun st kv => doWrite cls st kv.1 kv.2)
      { s with flagVal := true }).flagVal = true
    rw [h1]
  have hmicro : (markUpdateAsExternalModel cls s ws none).1.microResets
      = s.microResets + 1 := by
    show (ws.foldl (fun st kv => doWrite cls st kv.1 kv.2)
      { s with flagVal := true }).microResets + 1 = s.microResets + 1
    rw [h2]
  have hdrain : (doDrainMicro (markUpdateAsExternalModel cls s ws none).1).flagVal
      = false := by
    unfold doDrainMicro
    rw [if_pos (by rw [hmicro]; exact Nat.succ_pos _)]
  refine ⟨hflag, hmicro, ⟨new, ?_, hall rfl⟩, hdrain, ?_⟩
  · show (ws.foldl (fun st kv => doWrite cls st kv.1 kv.2)
      { s with flagVal := true }).logs = s.logs ++ new
    rw [hlg]
  · intro dt
    unfold endOfTurn
    rw [doAdvance_flag, hdrain]

/-- Claim C5: if the callback given to markUpdateAsExternal raises, the
flag is reset to false immediately in the catch (no deferred reset is
queued: the microtask count is unchanged), the same error is re-raised to
the caller, and a subsequent ordinary write (default classifier, actually
changed value) is classified user. -/
theorem markExternal_error_resets_immediately (s : Sys)
    (ws : List (String × Val)) (e : String) (k : String) (nv ov : Val)
    (h : strictEq nv ov = false) :
    ((markUpdateAsExternalModel none s ws (some e)).2 = some e) ∧
    ((markUpdateAsExternalModel none s ws (some e)).1.flagVal = false) ∧
    ((markUpdateAsExternalModel none s ws (some e)).1.microResets = s.microResets) ∧
    ((handleFieldChange
        (markUpdateAsExternalModel none s ws (some e)).1.skipExternalUpdates none
        (markUpdateAsExternalModel none s ws (some e)).1.flagVal k nv ov).scheduled
      = some (k, nv, Source.user)) := by
  obtain ⟨_, h2, _, _, _, _⟩ :=
    foldl_doWrite_proj none ws { s with flagVal := true }
  have hflag : (markUpdateAsExternalModel none s ws (some e)).1.flagVal = false := rfl
  have hmicro : (markUpdateAsExternalModel none s ws (some e)).1.microResets
      = s.microResets := by
    show (ws.foldl (fun st kv => doWrite none st kv.1 kv.2)
      { s with flagVal := true }).microResets = s.microResets
    rw [h2]
  refine ⟨rfl, hflag, hmicro, ?_⟩
  rw [hflag]
  unfold handleFieldChange
  rw [if_neg (by simp [h])]
  rw [if_neg (by simp [classifyOrigin])]
  rfl

/-- Witness for markExternal_error_resets_immediately at a concrete
orchestrator state and a throwing callback performing one write. -/
theorem markExternal_error_witness :
    strictEq (Val.prim 2) (Val.prim 1) = false ∧
    (((markUpdateAsExternalModel none (construct [(kname, Val.prim 0)] [] true 100)
        [(kname, Val.prim 1)] (some errBoom)).2 = some errBoom) ∧
     ((markUpdateAsExternalModel none (construct [(kname, Val.prim 0)] [] true 100)
        [(kname, Val.prim 1)] (some errBoom)).1.flagVal = false) ∧
     ((markUpdateAsExternalModel none (construct [(kname, Val.prim 0)] [] true 100)
        [(kname, Val.prim 1)] (some errBoom)).1.microResets =
        (construct [(kname, Val.prim 0)] [] true 100).microResets) ∧
     ((handleFieldChange
        (markUpdateAsExternalModel none (construct [(kname, Val.prim 0)] [] true 100)
          [(kname, Val.prim 1)] (some errBoom)).1.skipExternalUpdates none
        (markUpdateAsExternalModel none (construct [(kname, Val.prim 0)] [] true 100)
          [(kname, Val.prim 1)] (some errBoom)).1.flagVal
        kname (Val.prim 2) (Val.prim 1)).scheduled
      = some (kname, Val.prim 2, Source.user))) :=
  ⟨by decide, markExternal_error_resets_immediately
    (construct [(kname, Val.prim 0)] [] true 100) [(kname, Val.prim 1)]
    errBoom kname (Val.prim 2) (Val.prim 1) (by decide)⟩

/-- Fold preservation of a state predicate. -/
lemma foldl_preserveSys {α : Type} (f : Sys → α → Sys) (P : Sys → Prop)
    (hf : ∀ s a, P s → P (f s a)) :
    ∀ (l : List α) (s : Sys), P s → P (l.foldl f s) := by
  intro l
  induction l with
  | nil => intro s h; exact h
  | cons a l2 ih => intro s h; exact ih (f s a) (hf s a h)

/-- Unfolding equation for a write to an existing key. -/
lemma doWrite_eq_old (cls : Option (String → Val → Val → Bool)) (s : Sys)
    (k : String) (v : Val) (ov : Val)
    (h : lookupKey s.container k = some ov) :
    doWrite cls s k v =
      ({ s with container := setKey s.container k v } : Sys).activeField.foldl
        (fireOne cls k v ov) { s with container := setKey s.container k v } := by
  unfold doWrite
  rw [h]

/-- Unfolding equation for a write creating a new key. -/
lemma doWrite_eq_new (cls : Option (String → Val → Val → Bool)) (s : Sys)
    (k : String) (v : Val) (h : lookupKey s.container k = none) :
    doWrite cls s k v =
      (if s.objActive = true then
        attachUntracked
          { s with container := s.container ++ [(k, v)],
                   logs := s.logs ++ [LogEvent.newProperties [k]] } k
      else { s with container := s.container ++ [(k, v)] }) := by
  unfold doWrite
  rw [h]

/-- Unfolding equation for a clock advance with an empty debounce slot. -/
lemma doAdvance_eq_none (s : Sys) (dt : Nat) (h : s.pending = none) :
    doAdvance s dt = { s with now := s.now + dt } := by
  unfold doAdvance
  rw [h]

/-- Unfolding equation for a clock advance with an armed debounce slot. -/
lemma doAdvance_eq_some (s : Sys) (dt : Nat) (ft : Nat) (k : String)
    (v : Val) (src : Source) (h : s.pending = some (ft, k, v, src)) :
    doAdvance s dt =
      (if ft ≤ s.now + dt then
        { s with now := s.now + dt, pending := none,
                 logs := s.logs ++ [LogEvent.debouncedUpdate k v src],
                 calls := s.calls ++ [(k, v, src)] }
      else { s with now := s.now + dt }) := by
  unfold doAdvance
  rw [h]

lemma attachTracked_neverKey (k0 : String) (s : Sys) (k : String)
    (h : NeverKey k0 s) : NeverKey k0 (attachTracked s k) := by
  obtain ⟨ha, hp, hc, he⟩ := h
  unfold attachTracked
  split
  · exact ⟨ha, hp, hc, he⟩
  · rename_i hexc
    refine ⟨?_, hp, hc, he⟩
    intro w hw
    rcases List.mem_append.mp hw with hw2 | hw2
    · exact ha w hw2
    · have hwk : w.key = k := by
        rw [List.mem_singleton.mp hw2]
      rw [hwk]
      intro hkk
      exact hexc (by rw [hkk]; exact he)

lemma attachUntracked_neverKey (k0 : String) (s : Sys) (k : String)
    (h : NeverKey k0 s) : NeverKey k0 (attachUntracked s k) := by
  obtain ⟨ha, hp, hc, he⟩ := h
  unfold attachUntracked
  split
  · exact ⟨ha, hp, hc, he⟩
  · split
    · exact ⟨ha, hp, hc, he⟩
    · rename_i hmap hexc
      refine ⟨?_, hp, hc, he⟩
      intro w hw
      rcases List.mem_append.mp hw with hw2 | hw2
      · exact ha w hw2
      · have hwk : w.key = k := by
          rw [List.mem_singleton.mp hw2]
        rw [hwk]
        intro hkk
        exact hexc (by rw [hkk]; exact he)

lemma doWrite_neverKey (cls : Option (String → Val → Val → Bool))
    (k0 : String) (s : Sys) (k : String) (v : Val)
    (h : NeverKey k0 s) : NeverKey k0 (doWrite cls s k v) := by
  obtain ⟨ha, hp, hc, he⟩ := h
  rcases hl : lookupKey s.container k with _ | ov
  · rw [doWrite_eq_new cls s k v hl]
    split
    · exact attachUntracked_neverKey k0
        { s with container := s.container ++ [(k, v)],
                 logs := s.logs ++ [LogEvent.newProperties [k]] } k
        ⟨ha, hp, hc, he⟩
    · exact ⟨ha, hp, hc, he⟩
  · rw [doWrite_eq_old cls s k v ov hl]
    obtain ⟨new, p, heq, hpa, _⟩ := foldl_fireOne_spec cls k v ov
      (({ s with container := setKey s.container k v } : Sys)).activeField
      { s with container := setKey s.container k v }
    rw [heq]
    refine ⟨ha, ?_, hc, he⟩
    intro ft k2 v2 src hh
    have hh2 : p = some (ft, k2, v2, src) := hh
    rcases hpa with hpa | ⟨⟨w, hw, hwk⟩, ft2, src2, hps⟩
    · rw [hpa] at hh2
      exact hp ft k2 v2 src hh2
    · have hkk : k ≠ k0 := by
        rw [← hwk]
        exact ha w hw
      rw [hps] at hh2
      simp only [Option.some.injEq, Prod.mk.injEq] at hh2
      rw [← hh2.2.1]
      exact hkk

lemma doDestroy_neverKey (k0 : String) (s : Sys) (h : NeverKey k0 s) :
    NeverKey k0 (doDestroy s) := by
  obtain ⟨ha, hp, hc, he⟩ := h
  refine ⟨?_, hp, hc, he⟩
  intro w hw
  exact ha w (List.mem_of_mem_filter hw)

lemma doAdvance_neverKey (k0 : String) (s : Sys) (dt : Nat)
    (h : NeverKey k0 s) : NeverKey k0 (doAdvance s dt) := by
  obtain ⟨ha, hp, hc, he⟩ := h
  rcases hpend : s.pending with _ | ⟨ft, k2, v, src⟩
  · rw [doAdvance_eq_none s dt hpend]
    exact ⟨ha, hp, hc, he⟩
  · rw [doAdvance_eq_some s dt ft k2 v src hpend]
    split
    · refine ⟨ha, ?_, ?_, he⟩
      · intro ft3 k3 v3 src3 hh
        exact absurd hh (by simp)
      · intro c hcm
        have hcm2 : c ∈ s.calls ++ [(k2, v, src)] := hcm
        rcases List.mem_append.mp hcm2 with h3 | h3
        · exact hc c h3
        · rw [List.mem_singleton.mp h3]
          exact hp ft k2 v src hpend
    · exact ⟨ha, hp, hc, he⟩

lemma doDrainMicro_neverKey (k0 : String) (s : Sys) (h : NeverKey k0 s) :
    NeverKey k0 (doDrainMicro s) := by
  obtain ⟨ha, hp, hc, he⟩ := h
  unfold doDrainMicro
  split
  · exact ⟨ha, hp, hc, he⟩
  · exact ⟨ha, hp, hc, he⟩

lemma markExternal_neverKey (cls : Option (String → Val → Val → Bool))
    (k0 : String) (s : Sys) (ws : List (String × Val)) (err : Option String)
    (h : NeverKey k0 s) :
    NeverKey k0 (markUpdateAsExternalModel cls s ws err).1 := by
  obtain ⟨ha, hp, hc, he⟩ := h
  have h2 := foldl_preserveSys (fun st kv => doWrite cls st kv.1 kv.2) (NeverKey k0)
    (fun st kv hh => doWrite_neverKey cls k0 st kv.1 kv.2 hh) ws
    { s with flagVal := true } ⟨ha, hp, hc, he⟩
  obtain ⟨g1, g2, g3, g4⟩ := h2
  unfold markUpdateAsExternalModel
  cases err with
  | none => exact ⟨g1, g2, g3, g4⟩
  | some e => exact ⟨g1, g2, g3, g4⟩

lemma stepEv_neverKey (cls : Option (String → Val → Val → Bool))
    (k0 : String) (s : Sys) (ev : Ev) (h : NeverKey k0 s) :
    NeverKey k0 (stepEv cls s ev) := by
  cases ev with
  | write k v => exact doWrite_neverKey cls k0 s k v h
  | destroy => exact doDestroy_neverKey k0 s h
  | advance dt => exact doAdvance_neverKey k0 s dt h
  | markExternal ws err => exact markExternal_neverKey cls k0 s ws err h
  | drainMicro => exact doDrainMicro_neverKey k0 s h

lemma construct_neverKey (c0 : List (String × Val)) (ex : List String)
    (skip : Bool) (dt : Nat) (k0 : String) (hk : k0 ∈ ex) :
    NeverKey k0 (construct c0 ex skip dt) := by
  have h0 : NeverKey k0 (constructInit c0 ex skip dt) := by
    refine ⟨?_, ?_, ?_, hk⟩
    · intro w hw
      simp [constructInit] at hw
    · intro ft k2 v src hh
      simp [constructInit] at hh
    · intro c hcm
      simp [constructInit] at hcm
  have h1 : NeverKey k0 (attachTrackedAll c0 (constructInit c0 ex skip dt)) := by
    unfold attachTrackedAll
    exact foldl_preserveSys (fun s2 kv => attachTracked s2 kv.1) (NeverKey k0)
      (fun s2 kv hh => attachTracked_neverKey k0 s2 kv.1 hh) c0
      (constructInit c0 ex skip dt) h0
  have h2 : NeverKey k0 (objWatcherInit c0
      (attachTrackedAll c0 (constructInit c0 ex skip dt))) := by
    unfold objWatcherInit
    have hfold := foldl_preserveSys (fun st kv => attachUntracked st kv.1) (NeverKey k0)
      (fun st kv hh => attachUntracked_neverKey k0 st kv.1 hh) c0
      (attachTrackedAll c0 (constructInit c0 ex skip dt)) h1
    obtain ⟨g1, g2, g3, g4⟩ := hfold
    split
    · exact foldl_preserveSys attachUntracked (NeverKey k0)
        (fun st k2 hh => attachUntracked_neverKey k0 st k2 hh)
        (c0.map Prod.fst) _ ⟨g1, g2, g3, g4⟩
    · exact ⟨g1, g2, g3, g4⟩
  obtain ⟨g1, g2, g3, g4⟩ := h2
  exact ⟨g1, g2, g3, g4⟩

/-- Claim C8: a key in the configured exclusion list gets a no-op attach
(no watcher is created, no handle registered, only the skipped
diagnostic), and over every run of the system — any construction and any
sequence of writes, destroys, clock advances, mark-external scopes and
microtask drains — no consumer call ever carries that key. -/
theorem excluded_key_never_forwarded (cls : Option (String → Val → Val → Bool))
    (c0 : List (String × Val)) (ex : List String) (skip : Bool) (dt : Nat)
    (k0 : String) (hk : k0 ∈ ex) :
    (∀ s : Sys, k0 ∈ s.exclude →
        (attachTracked s k0).activeField = s.activeField ∧
        (attachTracked s k0).tracked = s.tracked ∧
        (attachTracked s k0).logs = s.logs ++ [LogEvent.skippedUpdate k0]) ∧
    (∀ evs : List Ev, ∀ c ∈ (runEvents cls c0 ex skip dt evs).calls, c.1 ≠ k0) := by
  constructor
  · intro s hs
    unfold attachTracked
    rw [if_pos hs]
    exact ⟨rfl, rfl, rfl⟩
  · intro evs c hc
    have hrun : NeverKey k0 (runEvents cls c0 ex skip dt evs) :=
      foldl_preserveSys (stepEv cls) (NeverKey k0)
        (fun s2 ev hh => stepEv_neverKey cls k0 s2 ev hh) evs
        (construct c0 ex skip dt) (construct_neverKey c0 ex skip dt k0 hk)
    exact hrun.2.2.1 c hc

/-- Witness for excluded_key_never_forwarded: the spec scenario with email
excluded; a write to email followed by a full debounce window produces no
consumer call carrying email. -/
theorem excluded_key_never_forwarded_witness :
    kemail ∈ [kemail] ∧
    ((∀ s : Sys, kemail ∈ s.exclude →
        (attachTracked s kemail).activeField = s.activeField ∧
        (attachTracked s kemail).tracked = s.tracked ∧
        (attachTracked s kemail).logs = s.logs ++ [LogEvent.skippedUpdate kemail]) ∧
     (∀ evs : List Ev,
        ∀ c ∈ (runEvents none [(kname, Val.prim 0), (kemail, Val.prim 0)]
            [kemail] true 100 evs).calls, c.1 ≠ kemail)) :=
  ⟨List.mem_singleton.mpr rfl,
   excluded_key_never_forwarded none [(kname, Val.prim 0), (kemail, Val.prim 0)]
     [kemail] true 100 kemail (List.mem_singleton.mpr rfl)⟩

/-- Claim C7 amended: construction performs exactly the three synchronous
validations of lines 133-142, before any observation is installed,
raising an input-validation error when the container is falsy or not of
typeof object, when the forwarding callback is not callable, or when the
exclusion option is present (not undefined) and is not an array — the
elements of the array are not inspected.  Equivalently, validation
succeeds exactly when all three checks pass, and any validation error
aborts construction with that error. -/
theorem validation_exact_and_first (fo uf ex : JSVal) :
    (validateInputs fo uf ex = Except.ok () ↔
      (truthy fo = true ∧ typeofJs fo = "object" ∧
        typeofJs uf = "function" ∧
        (ex = JSVal.vundefined ∨ isArrayJs ex = true))) ∧
    (∀ (e : String) (c0 : List (String × Val)) (exl : List String)
        (skip : Bool) (dt : Nat),
      validateInputs fo uf ex = Except.error e →
      createFormWatchersModel fo uf ex c0 exl skip dt = Except.error e) := by
  constructor
  · unfold validateInputs
    split
    · rename_i h1
      constructor
      · intro h
        exact absurd h (by simp)
      · rintro ⟨ha, hb, -⟩
        rcases h1 with h1 | h1
        · rw [ha] at h1
          exact absurd h1 (by simp)
        · exact (h1 hb).elim
    · rename_i h1
      split
      · rename_i h2
        constructor
        · intro h
          exact absurd h (by simp)
        · rintro ⟨-, -, hf, -⟩
          exact (h2 hf).elim
      · rename_i h2
        split
        · rename_i h3
          constructor
          · intro h
            exact absurd h (by simp)
          · rintro ⟨-, -, -, hex⟩
            obtain ⟨h3a, h3b⟩ := h3
            rcases hex with hex | hex
            · exact (h3a hex).elim
            · rw [hex] at h3b
              exact absurd h3b (by simp)
        · rename_i h3
          simp only [not_or, ne_eq, not_not, Bool.not_eq_false] at h1
          simp only [ne_eq, not_not] at h2
          constructor
          · intro _
            refine ⟨h1.1, h1.2, h2, ?_⟩
            by_cases hu : ex = JSVal.vundefined
            · exact Or.inl hu
            · right
              rcases hbb : isArrayJs ex with _ | _
              · exact absurd ⟨hu, hbb⟩ h3
              · rfl
          · intro _
            rfl
  · intro e c0 exl skip dt h
    unfold createFormWatchersModel
    rw [h]

/-- Witness for validation_exact_and_first: a null container fails the
first validation and construction aborts with that error. -/
theorem validation_exact_and_first_witness :
    (validateInputs JSVal.vnull JSVal.vfun JSVal.vundefined =
        Except.error errFormObject) ∧
    createFormWatchersModel JSVal.vnull JSVal.vfun JSVal.vundefined
        [] [] true 100 = Except.error errFormObject :=
  ⟨rfl, (validation_exact_and_first JSVal.vnull JSVal.vfun JSVal.vundefined).2
      errFormObject [] [] true 100 rfl⟩
